import Mathlib

/-!
Shallow embedding of `WINSDK/egui_test` (src/src/main.rs, src/src/style.rs),
covering the authored logic: the `Buffers` tab/content mapping with its
`TabViewer` implementation (`ui`, `on_close`, `has_multiple_tabs`), the
alt-tab cycling handler inside `main`'s redraw closure, the window-resize
handler, and the redraw frame-acquisition error path.

Machine integers (`usize`, `u32`) are modelled as `Nat`; a `usize`
subtraction that would overflow in the source is modelled as a failing
(`Option.none`) outcome, matching the overflow panic of a checked build.
`BTreeMap<Title, TabKind>` is modelled as its association list (keys are
unique in a `BTreeMap`; the lexicographic ordering plays no role in any
claim).
-/

/-- Tab titles; `type Title = &'static str` in the source. -/
abbrev Title := String

/-- Mirrors `enum TabKind { Source(String), Listing(usize) }`. -/
inductive TabKind where
  | Source (src : String)
  | Listing (id : Nat)
  deriving DecidableEq

/-- Mirrors `struct Buffers { inner: BTreeMap<Title, TabKind> }`, the map
modelled as its association list of entries. -/
structure Buffers where
  inner : List (Title × TabKind)
  deriving DecidableEq

/-- Mirrors `Buffers::has_multiple_tabs`: `self.inner.len() != 1`. -/
def Buffers.has_multiple_tabs (b : Buffers) : Bool :=
  b.inner.length != 1

/-- Mirrors `BTreeMap::get` on `self.inner`: the value stored at `title`,
if any. -/
def Buffers.get (b : Buffers) (title : Title) : Option TabKind :=
  (b.inner.find? (fun p => p.1 == title)).map Prod.snd

/-- Mirrors `BTreeMap::remove` on the association list: drops the entry
with the given key (keys are unique in a `BTreeMap`). -/
def removeKey (l : List (Title × TabKind)) (k : Title) : List (Title × TabKind) :=
  l.filter (fun p => p.1 != k)

/-- Mirrors `Buffers::on_close`: refuse (`false`) when exactly one entry
remains, otherwise remove the key and report success (`true`). Returns the
result flag together with the updated mapping. -/
def Buffers.on_close (b : Buffers) (tab : Title) : Bool × Buffers :=
  if b.inner.length = 1 then
    (false, b)
  else
    (true, ⟨removeKey b.inner tab⟩)

/-- Mirrors `Buffers::ui` (the `TabViewer` impl): looks the title up and
returns the text handed to `ui.label` — the source text for a `Source`
entry, the decimal rendering of the id for a `Listing` entry, and nothing
(the `_ => return` arm) when the title is absent. -/
def Buffers.ui (b : Buffers) (title : Title) : Option String :=
  match b.get title with
  | some (TabKind.Source src) => some src
  | some (TabKind.Listing id) => some (toString id)
  | none => none

/-- C1: with more than one tab, `on_close` succeeds and removes exactly the
given key (every other entry survives, nothing is added); with exactly one
tab it refuses and leaves the mapping unchanged. -/
theorem on_close_spec (b : Buffers) (tab : Title) :
    (1 < b.inner.length →
      (b.on_close tab).1 = true ∧
      tab ∉ ((b.on_close tab).2.inner.map Prod.fst) ∧
      (∀ p ∈ b.inner, p.1 ≠ tab → p ∈ (b.on_close tab).2.inner) ∧
      (∀ p ∈ (b.on_close tab).2.inner, p ∈ b.inner ∧ p.1 ≠ tab)) ∧
    (b.inner.length = 1 → b.on_close tab = (false, b)) := by
  constructor
  · intro hlen
    have hne : b.inner.length ≠ 1 := by omega
    simp only [Buffers.on_close, if_neg hne]
    refine ⟨trivial, ?_, ?_, ?_⟩
    · intro hmem
      simp only [List.mem_map] at hmem
      obtain ⟨p, hp, hfst⟩ := hmem
      have := List.of_mem_filter hp
      simp only [bne_iff_ne, ne_eq, decide_eq_true_eq] at this
      exact this hfst
    · intro p hp hne'
      apply List.mem_filter_of_mem hp
      simp [hne']
    · intro p hp
      refine ⟨List.mem_of_mem_filter hp, ?_⟩
      have := List.of_mem_filter hp
      simpa using this
  · intro hlen
    simp [Buffers.on_close, hlen]

/-- Witness for C1 on the seeded two-tab mapping. -/
theorem on_close_spec_witness :
    ((Buffers.mk [("Source", TabKind.Listing 1600),
        ("Disassembly", TabKind.Source "line 1")]).on_close "Source").1 = true ∧
    (Buffers.mk [("Source", TabKind.Listing 1600)]).on_close "Source" =
      (false, Buffers.mk [("Source", TabKind.Listing 1600)]) :=
  ⟨((on_close_spec (Buffers.mk [("Source", TabKind.Listing 1600),
      ("Disassembly", TabKind.Source "line 1")]) "Source").1 (by decide)).1,
    (on_close_spec (Buffers.mk [("Source", TabKind.Listing 1600)]) "Source").2 rfl⟩

/-- C4: `has_multiple_tabs` is `false` exactly when the mapping holds one
entry. -/
theorem has_multiple_tabs_false_iff (b : Buffers) :
    b.has_multiple_tabs = false ↔ b.inner.length = 1 := by
  simp [Buffers.has_multiple_tabs]

/-- Witness for C4 at a one-entry mapping. -/
theorem has_multiple_tabs_false_iff_witness :
    (Buffers.mk [("Source", TabKind.Listing 1600)]).has_multiple_tabs = false :=
  (has_multiple_tabs_false_iff (Buffers.mk [("Source", TabKind.Listing 1600)])).mpr rfl

/-- C5 counterexample: the empty mapping has no tabs at all, yet
`has_multiple_tabs` returns `true`, so `true` is not equivalent to
"at least two entries". -/
theorem has_multiple_tabs_empty_counterexample :
    (Buffers.mk []).has_multiple_tabs = true ∧ ¬ 2 ≤ (Buffers.mk []).inner.length := by
  constructor
  · rfl
  · decide

/-- C5 amended: `has_multiple_tabs` returns `true` exactly when the mapping
does not hold exactly one entry (zero entries or at least two). -/
theorem has_multiple_tabs_true_iff (b : Buffers) :
    b.has_multiple_tabs = true ↔ b.inner.length ≠ 1 := by
  simp [Buffers.has_multiple_tabs]

/-- Witness for the amended C5 at a two-entry mapping. -/
theorem has_multiple_tabs_true_iff_witness :
    (Buffers.mk [("Source", TabKind.Listing 1600),
      ("Disassembly", TabKind.Source "line 1")]).has_multiple_tabs = true :=
  (has_multiple_tabs_true_iff (Buffers.mk [("Source", TabKind.Listing 1600),
    ("Disassembly", TabKind.Source "line 1")])).mpr (by decide)

/-- C9: closing a tab of an empty mapping is accepted (`true`) — the
`len == 1` refusal does not trigger at length 0 — and the mapping stays
empty. -/
theorem on_close_empty (b : Buffers) (tab : Title) (h : b.inner = []) :
    b.on_close tab = (true, b) := by
  obtain ⟨l⟩ := b
  simp only at h
  subst h
  rfl

/-- Witness for C9 at the empty mapping. -/
theorem on_close_empty_witness :
    (Buffers.mk []).on_close "Source" = (true, Buffers.mk []) :=
  on_close_empty (Buffers.mk []) "Source" rfl

/-- C10: the tab-content renderer is total: a `Source` entry displays its
text, a `Listing` entry displays the decimal rendering of its id, and an
absent title renders nothing. -/
theorem ui_total (b : Buffers) (title : Title) :
    (∀ src, b.get title = some (TabKind.Source src) → b.ui title = some src) ∧
    (∀ id, b.get title = some (TabKind.Listing id) → b.ui title = some (toString id)) ∧
    (b.get title = none → b.ui title = none) := by
  refine ⟨fun src h => ?_, fun id h => ?_, fun h => ?_⟩ <;> simp [Buffers.ui, h]

/-- Witness for C10 on the seeded mapping: a `Listing` tab, a `Source`
tab, and an absent title. -/
theorem ui_total_witness :
    (Buffers.mk [("Disassembly", TabKind.Source "line 1"),
      ("Source", TabKind.Listing 1600)]).ui "Source" = some "1600" :=
  (ui_total (Buffers.mk [("Disassembly", TabKind.Source "line 1"),
    ("Source", TabKind.Listing 1600)]) "Source").2.1 1600 rfl

/-- Mirrors `egui_dock::Node` as the alt-tab handler sees it: `Leaf { tabs,
active, .. }` carries the ordered tab titles and the active tab index; every
other constructor (`Empty`, `Vertical`, `Horizontal`) holds no tabs and is
not matched by the handler's `if let`. -/
inductive Node where
  | leaf (tabs : List Title) (active : Nat)
  | other
  deriving DecidableEq

/-- Mirrors the `egui_dock::tree::Tree` state the handler touches: the node
vector (`tree.len()` is its length, `tree[idx]` indexes it) together with
the focused leaf index (`tree.focused_leaf()`). -/
structure DockTree where
  nodes : List Node
  focused : Option Nat
  deriving DecidableEq

/-- Mirrors `egui_dock::Tree::set_active_tab`: replaces the active index of
the node at `idx` when that node is a leaf, otherwise leaves the tree
untouched. -/
def DockTree.set_active_tab (t : DockTree) (idx : Nat) (tabIdx : Nat) : DockTree :=
  match t.nodes[idx]? with
  | some (Node.leaf tabs _) => { t with nodes := t.nodes.set idx (Node.leaf tabs tabIdx) }
  | _ => t

/-- Mirrors the alt-tab block of `main` (the body of the
`consume_key(ALT, Tab)` branch): fall back to the root index when no leaf
is focused, return unchanged when the tree has no nodes, and otherwise
cycle the active tab of the target node when it is a leaf. `none` models a
panic: an out-of-bounds `tree[focused_idx]` index, or the `usize`
underflow of `tabs.len() - 1` on a leaf with no tabs. -/
def altTab (t : DockTree) : Option DockTree :=
  let focusedIdx := t.focused.getD 0
  if t.nodes.length = 0 then
    some t
  else
    match t.nodes[focusedIdx]? with
    | none => none
    | some (Node.leaf tabs active) =>
        if tabs.length = 0 then
          none
        else if active ≠ tabs.length - 1 then
          some (t.set_active_tab focusedIdx (active + 1))
        else
          some (t.set_active_tab focusedIdx 0)
    | some Node.other => some t

/-- Tab list carried by a node; non-leaf nodes hold no tabs. -/
def Node.tabsOf : Node → List Title
  | Node.leaf tabs _ => tabs
  | Node.other => []

theorem set_active_tab_focused (t : DockTree) (idx tabIdx : Nat) :
    (t.set_active_tab idx tabIdx).focused = t.focused := by
  unfold DockTree.set_active_tab
  split <;> rfl

theorem set_active_tab_length (t : DockTree) (idx tabIdx : Nat) :
    (t.set_active_tab idx tabIdx).nodes.length = t.nodes.length := by
  unfold DockTree.set_active_tab
  split <;> simp

theorem set_active_tab_get_ne (t : DockTree) (idx tabIdx j : Nat) (hj : j ≠ idx) :
    (t.set_active_tab idx tabIdx).nodes[j]? = t.nodes[j]? := by
  unfold DockTree.set_active_tab
  split
  · exact List.getElem?_set_ne (fun h => hj h.symm)
  · rfl

theorem set_active_tab_get_eq (t : DockTree) (idx tabIdx : Nat) (tabs : List Title)
    (a : Nat) (h : t.nodes[idx]? = some (Node.leaf tabs a)) :
    (t.set_active_tab idx tabIdx).nodes[idx]? = some (Node.leaf tabs tabIdx) := by
  have hlt : idx < t.nodes.length := by
    by_contra hge
    rw [List.getElem?_eq_none (by omega)] at h
    exact Option.noConfusion h
  unfold DockTree.set_active_tab
  rw [h]
  exact List.getElem?_set_eq_of_lt _ hlt

theorem set_active_tab_tabsOf (t : DockTree) (idx tabIdx j : Nat) :
    ((t.set_active_tab idx tabIdx).nodes[j]?).map Node.tabsOf =
      (t.nodes[j]?).map Node.tabsOf := by
  rcases eq_or_ne j idx with rfl | hj
  · match h : t.nodes[j]? with
    | none =>
      unfold DockTree.set_active_tab
      simp [h]
    | some (Node.leaf tabs a) =>
      rw [set_active_tab_get_eq t j tabIdx tabs a h]
      simp [h, Node.tabsOf]
    | some Node.other =>
      unfold DockTree.set_active_tab
      simp [h]
  · rw [set_active_tab_get_ne t idx tabIdx j hj]

theorem altTab_leaf_eq (t : DockTree) (k i : Nat) (tabs : List Title)
    (hfoc : t.focused = some k)
    (hleaf : t.nodes[k]? = some (Node.leaf tabs i))
    (hne : t.nodes.length ≠ 0) :
    altTab t = if tabs.length = 0 then none
      else if i ≠ tabs.length - 1 then some (t.set_active_tab k (i + 1))
      else some (t.set_active_tab k 0) := by
  simp only [altTab, hfoc, Option.getD_some, hleaf, if_neg hne]

/-- C2: on a focused leaf with `N` tabs and active index `i < N`, the
alt-tab handler succeeds and the leaf's new active index is
`(i + 1) % N` — the two branches of the source collapse to the single
modular expression. -/
theorem altTab_cycles_mod (t : DockTree) (k i : Nat) (tabs : List Title)
    (hfoc : t.focused = some k)
    (hleaf : t.nodes[k]? = some (Node.leaf tabs i))
    (hi : i < tabs.length) :
    ∃ t', altTab t = some t' ∧
      t'.nodes[k]? = some (Node.leaf tabs ((i + 1) % tabs.length)) := by
  have hk : k < t.nodes.length := by
    by_contra hge
    rw [List.getElem?_eq_none (by omega)] at hleaf
    exact Option.noConfusion hleaf
  have hN : tabs.length ≠ 0 := by omega
  rw [altTab_leaf_eq t k i tabs hfoc hleaf (by omega), if_neg hN]
  by_cases hcase : i ≠ tabs.length - 1
  · rw [if_pos hcase]
    refine ⟨t.set_active_tab k (i + 1), rfl, ?_⟩
    rw [Nat.mod_eq_of_lt (by omega)]
    exact set_active_tab_get_eq t k (i + 1) tabs i hleaf
  · rw [if_neg hcase]
    refine ⟨t.set_active_tab k 0, rfl, ?_⟩
    rw [show i + 1 = tabs.length by omega, Nat.mod_self]
    exact set_active_tab_get_eq t k 0 tabs i hleaf

/-- Witness for C2: cycling from the last tab of the two seeded tabs wraps
to index `(1 + 1) % 2 = 0`. -/
theorem altTab_cycles_mod_witness :
    ∃ t', altTab ⟨[Node.leaf ["Source", "Disassembly"] 1], some 0⟩ = some t' ∧
      t'.nodes[0]? = some (Node.leaf ["Source", "Disassembly"]
        ((1 + 1) % ["Source", "Disassembly"].length)) :=
  altTab_cycles_mod ⟨[Node.leaf ["Source", "Disassembly"] 1], some 0⟩ 0 1
    ["Source", "Disassembly"] rfl rfl (by decide)

/-- C3 counterexample: the combination fires with no pane focused, yet the
tree changes — the handler falls back to the root leaf and advances its
active tab index from 0 to 1. -/
theorem altTab_no_focus_counterexample :
    altTab ⟨[Node.leaf ["Source", "Disassembly"] 0], none⟩ =
      some ⟨[Node.leaf ["Source", "Disassembly"] 1], none⟩ ∧
    altTab ⟨[Node.leaf ["Source", "Disassembly"] 0], none⟩ ≠
      some ⟨[Node.leaf ["Source", "Disassembly"] 0], none⟩ := by
  constructor
  · rfl
  · decide

/-- C3 corrected: firing on a tree with no nodes leaves it unchanged, but
with no pane focused the handler does not no-op: it falls back to the root
node and transforms the node vector exactly as if the root were focused. -/
theorem altTab_empty_and_fallback (t : DockTree) :
    (t.nodes = [] → altTab t = some t) ∧
    (t.focused = none →
      (altTab t).map DockTree.nodes =
        (altTab ⟨t.nodes, some 0⟩).map DockTree.nodes) := by
  constructor
  · intro h
    simp [altTab, h]
  · intro h
    simp only [altTab, h, Option.getD_none, Option.getD_some]
    by_cases h0 : t.nodes.length = 0
    · simp [h0]
    · simp only [if_neg h0]
      match hnode : t.nodes[0]? with
      | none => simp [hnode]
      | some (Node.leaf tabs a) =>
        by_cases ht : tabs.length = 0
        · simp [hnode, ht]
        · by_cases ha : a ≠ tabs.length - 1 <;>
            simp [hnode, ht, ha, DockTree.set_active_tab]
      | some Node.other => simp [hnode]

/-- Witness for the corrected C3: the empty tree is unchanged, and an
unfocused one-leaf tree is handled exactly like the same tree with the
root focused. -/
theorem altTab_empty_and_fallback_witness :
    altTab ⟨[], none⟩ = some ⟨[], none⟩ ∧
    (altTab ⟨[Node.leaf ["Source", "Disassembly"] 0], none⟩).map DockTree.nodes =
      (altTab ⟨[Node.leaf ["Source", "Disassembly"] 0], some 0⟩).map DockTree.nodes :=
  ⟨(altTab_empty_and_fallback ⟨[], none⟩).1 rfl,
    (altTab_empty_and_fallback ⟨[Node.leaf ["Source", "Disassembly"] 0], none⟩).2 rfl⟩

/-- C8: whenever the alt-tab handler completes, the pane layout survives
intact: the focus record and node count are unchanged, every node other
than the target keeps its exact state, every node keeps its exact tab
list, and the target changes at most its active tab index. The handler
reads and writes nothing else — in particular `altTab` never touches a
`Buffers` mapping. -/
theorem altTab_preserves_tabs (t t' : DockTree) (h : altTab t = some t') :
    t'.focused = t.focused ∧
    t'.nodes.length = t.nodes.length ∧
    (∀ j : Nat, j ≠ t.focused.getD 0 → t'.nodes[j]? = t.nodes[j]?) ∧
    (∀ j : Nat, (t'.nodes[j]?).map Node.tabsOf = (t.nodes[j]?).map Node.tabsOf) := by
  simp only [altTab] at h
  by_cases h0 : t.nodes.length = 0
  · rw [if_pos h0] at h
    have heq := Option.some.inj h
    subst heq
    exact ⟨rfl, rfl, fun _ _ => rfl, fun _ => rfl⟩
  · rw [if_neg h0] at h
    match hnode : t.nodes[t.focused.getD 0]? with
    | none =>
      simp only [hnode] at h
      exact Option.noConfusion h
    | some (Node.leaf tabs a) =>
      simp only [hnode] at h
      by_cases ht : tabs.length = 0
      · rw [if_pos ht] at h
        exact Option.noConfusion h
      · simp only [if_neg ht] at h
        by_cases ha : a ≠ tabs.length - 1
        · simp only [if_pos ha] at h
          have heq := Option.some.inj h
          subst heq
          exact ⟨set_active_tab_focused t _ _, set_active_tab_length t _ _,
            fun j hj => set_active_tab_get_ne t _ _ j hj,
            fun j => set_active_tab_tabsOf t _ _ j⟩
        · simp only [if_neg ha] at h
          have heq := Option.some.inj h
          subst heq
          exact ⟨set_active_tab_focused t _ _, set_active_tab_length t _ _,
            fun j hj => set_active_tab_get_ne t _ _ j hj,
            fun j => set_active_tab_tabsOf t _ _ j⟩
    | some Node.other =>
      simp only [hnode] at h
      have heq := Option.some.inj h
      subst heq
      exact ⟨rfl, rfl, fun _ _ => rfl, fun _ => rfl⟩

/-- Witness for C8 on the seeded one-leaf tree: after a completed alt-tab
step the focus record and the node count are unchanged. -/
theorem altTab_preserves_tabs_witness :
    (⟨[Node.leaf ["Source", "Disassembly"] 1], some 0⟩ : DockTree).focused =
      (⟨[Node.leaf ["Source", "Disassembly"] 0], some 0⟩ : DockTree).focused ∧
    (⟨[Node.leaf ["Source", "Disassembly"] 1], some 0⟩ : DockTree).nodes.length =
      (⟨[Node.leaf ["Source", "Disassembly"] 0], some 0⟩ : DockTree).nodes.length :=
  ⟨(altTab_preserves_tabs ⟨[Node.leaf ["Source", "Disassembly"] 0], some 0⟩
      ⟨[Node.leaf ["Source", "Disassembly"] 1], some 0⟩ rfl).1,
    (altTab_preserves_tabs ⟨[Node.leaf ["Source", "Disassembly"] 0], some 0⟩
      ⟨[Node.leaf ["Source", "Disassembly"] 1], some 0⟩ rfl).2.1⟩

/-- Mirrors the `wgpu::SurfaceConfiguration` fields the resize handler
writes (`width` and `height`, both `u32`); the remaining fields (usage,
format, present mode, alpha mode, view formats) are fixed at startup and
never touched again. -/
structure SurfaceConfiguration where
  width : Nat
  height : Nat
  deriving DecidableEq

/-- Mirrors the `WindowEvent::Resized(size)` arm of the event loop: when
`size.width > 0 && size.height > 0`, store the new dimensions in
`surface_config` and call `surface.configure`; otherwise do nothing.
Returns the configuration after the arm together with whether
`surface.configure` ran. -/
def resizedHandler (cfg : SurfaceConfiguration) (w h : Nat) :
    SurfaceConfiguration × Bool :=
  if 0 < w ∧ 0 < h then
    ({ width := w, height := h }, true)
  else
    (cfg, false)

/-- C6: the surface is reconfigured exactly when both new dimensions are
positive, and in that case with the new width and height; otherwise the
stored configuration is left as it was. -/
theorem resized_spec (cfg : SurfaceConfiguration) (w h : Nat) :
    ((resizedHandler cfg w h).2 = true ↔ 0 < w ∧ 0 < h) ∧
    (0 < w ∧ 0 < h →
      (resizedHandler cfg w h).1 = SurfaceConfiguration.mk w h) ∧
    (¬(0 < w ∧ 0 < h) → (resizedHandler cfg w h).1 = cfg) := by
  by_cases hc : 0 < w ∧ 0 < h <;> simp [resizedHandler, hc]

/-- Witness for C6: a genuine resize updates the configuration; a
zero-width resize leaves it untouched. -/
theorem resized_spec_witness :
    (resizedHandler ⟨1300, 900⟩ 800 600).1 = SurfaceConfiguration.mk 800 600 ∧
    (resizedHandler ⟨1300, 900⟩ 0 600).1 = SurfaceConfiguration.mk 1300 900 :=
  ⟨(resized_spec ⟨1300, 900⟩ 800 600).2.1 (by decide),
    (resized_spec ⟨1300, 900⟩ 0 600).2.2 (by decide)⟩

/-- Observable steps of one `RedrawRequested` iteration of the event loop,
in program order: the animation-clock update, a line written to standard
error, the whole UI pass (`begin_frame` through `end_frame`, tessellation
and texture upload), the GPU queue submission, and the surface present. -/
inductive RenderStep where
  | updateTime
  | logStderr (msg : String)
  | uiPass
  | submit
  | present
  deriving DecidableEq

/-- Mirrors the control flow of the `RedrawRequested(..)` arm: after the
clock update, `surface.get_current_texture()` either fails — the error is
printed to standard error and the arm returns early — or yields a frame,
after which the UI pass, the queue submission and the present all run.
The argument is the outcome of the acquisition for this iteration; each
later iteration calls the arm afresh, so an iteration whose acquisition
succeeds renders regardless of earlier failures. -/
def redrawRequested (acquire : Except String Unit) : List RenderStep :=
  match acquire with
  | Except.error e =>
      [RenderStep.updateTime,
        RenderStep.logStderr ("Dropped frame with error: " ++ e)]
  | Except.ok _ =>
      [RenderStep.updateTime, RenderStep.uiPass, RenderStep.submit,
        RenderStep.present]

/-- C7: when frame acquisition fails the iteration only updates the clock
and logs the error to standard error — no UI pass, no submission, no
present — while an iteration with a successful acquisition performs the
full render sequence, so rendering resumes as soon as acquisition
succeeds again. -/
theorem redraw_error_skips_frame (e : String) :
    redrawRequested (Except.error e) =
      [RenderStep.updateTime,
        RenderStep.logStderr ("Dropped frame with error: " ++ e)] ∧
    RenderStep.uiPass ∉ redrawRequested (Except.error e) ∧
    RenderStep.submit ∉ redrawRequested (Except.error e) ∧
    RenderStep.present ∉ redrawRequested (Except.error e) ∧
    redrawRequested (Except.ok ()) =
      [RenderStep.updateTime, RenderStep.uiPass, RenderStep.submit,
        RenderStep.present] := by
  refine ⟨rfl, ?_, ?_, ?_, rfl⟩ <;> simp [redrawRequested]

/-- Witness for C7 at a concrete error message. -/
theorem redraw_error_skips_frame_witness :
    redrawRequested (Except.error "Timeout") =
      [RenderStep.updateTime,
        RenderStep.logStderr ("Dropped frame with error: " ++ "Timeout")] :=
  (redraw_error_skips_frame "Timeout").1
